import Mathlib

/-!
Host-error classification of the browserpass extension.

A shallow embedding of `src/errors.js`: the `HostError` constructor with its
schema table `HostError.KNOWN_ERRORS`, the `versionString` getter and the two
`logToConsole` methods, followed by the properties established about them.

JavaScript objects are modelled by their own enumerable string-keyed
properties; the few places where the source reaches the prototype chain (the
`in` operator, and assignment to the key `__proto__`) are modelled explicitly.
-/

namespace Browserpass

/-! ## Values and objects -/

/-- The JavaScript values a response field or a parameter can hold: `undefined`
(also the value of an absent property), a Number and a String. `number n`
stands for the integer-valued Number `n`; on integers below `2^53` in absolute
value the double arithmetic used by the source (`%`, `-`, exact `/`, and
`Math.floor` of a quotient) agrees with integer arithmetic. -/
inductive JSValue where
  | undefined
  | number (n : Int)
  | string (s : String)
  deriving DecidableEq

/-- The ToString conversion, as applied by a template literal and by a property
key: `undefined` becomes the text `undefined`, an integer its decimal numeral
(the form JavaScript prints below `10^21`), a string itself. -/
def JSValue.toJSString : JSValue → String
  | .undefined => "undefined"
  | .number n => toString n
  | .string s => s

/-- A plain object, as the list of its own enumerable properties in the order
of their creation, which is the order of `Object.keys` for keys that are not
array indices (no key occurs twice in a real object). -/
abbrev Obj := List (String × JSValue)

/-- The result of `Object.keys(o)`. -/
def Obj.keys (o : Obj) : List String := o.map Prod.fst

/-- The result of `o.hasOwnProperty(k)`. -/
def Obj.hasOwnProperty (o : Obj) (k : String) : Bool := decide (k ∈ Obj.keys o)

/-- The property read `o[k]` for a key that is an own property of `o` or is
not a property of `Object.prototype` either (the source reads only the keys
returned by `Object.keys` and the key `message`): the own value, otherwise
`undefined`. -/
def Obj.get : Obj → String → JSValue
  | [], _ => .undefined
  | (k', v) :: rest, k => if k' = k then v else Obj.get rest k

/-- Overwrites the value of every entry with key `k`. -/
def Obj.replace : Obj → String → JSValue → Obj
  | [], _, _ => []
  | (k', v') :: rest, k, v =>
    (k', if k' = k then v else v') :: Obj.replace rest k v

/-- The assignment `o[k] = v` on a plain object whose prototype is
`Object.prototype`, for a primitive `v`. An own property is overwritten.
Otherwise the key `__proto__` resolves to the inherited accessor, whose setter
ignores a value that is neither an object nor `null`, so nothing is stored;
any other key becomes a new own property. -/
def Obj.set (o : Obj) (k : String) (v : JSValue) : Obj :=
  if Obj.hasOwnProperty o k then Obj.replace o k v
  else if k = "__proto__" then o
  else o ++ [(k, v)]

/-- The property names of `Object.prototype` in a browser, which every plain
object inherits. -/
def objectPrototypeKeys : List String :=
  ["constructor", "__defineGetter__", "__defineSetter__", "hasOwnProperty",
   "__lookupGetter__", "__lookupSetter__", "isPrototypeOf", "propertyIsEnumerable",
   "toString", "valueOf", "__proto__", "toLocaleString"]

/-- The errors a JavaScript operation of the source can raise. -/
inductive JSError where
  | typeError (what : String)
  | referenceError (name : String)
  deriving DecidableEq

/-- The completion of a piece of JavaScript: a value, or a thrown error. -/
inductive Completion (α : Type) where
  | normal (value : α)
  | throw (e : JSError)
  deriving DecidableEq

/-! ## Responses, schemas and errors -/

/-- The raw response `{status, version, code, params}`; an absent field is
`undefined`, an absent `params` is `none`. -/
structure Response where
  status : JSValue
  version : JSValue
  code : JSValue
  params : Option Obj
  deriving DecidableEq

/-- One entry of the schema table. -/
structure ErrorSchema where
  description : String
  expectedParams : List String
  deriving DecidableEq

/-- The fields of a `HostError` instance after construction. `unexpectedParams`
is `none` when it holds `undefined`, `rawResponse` is `none` when the field was
never assigned. -/
structure HostError where
  message : String
  name : String
  alreadyLogged : Bool
  version : JSValue
  code : JSValue
  params : Obj
  unexpectedParams : Option Obj
  genericDescription : String
  rawResponse : Option Response
  deriving DecidableEq

/-- The fields of an `ExtensionError` instance. -/
structure ExtensionError where
  message : String
  name : String
  alreadyLogged : Bool
  deriving DecidableEq

/-- The table `HostError.KNOWN_ERRORS` (errors.js, lines 119-162). -/
def HostError.KNOWN_ERRORS : List (String × ErrorSchema) :=
  [("10", ⟨"Unable to parse browser request length", ["error"]⟩),
   ("11", ⟨"Unable to parse browser request", ["error"]⟩),
   ("12", ⟨"Invalid request action", ["action"]⟩),
   ("13", ⟨"Inaccessible user-configured password store",
      ["action", "error", "storeId", "storePath", "storeName"]⟩),
   ("14", ⟨"Inaccessible default password store", ["action", "error", "storePath"]⟩),
   ("15", ⟨"Unable to determine the location of the default password store",
      ["action", "error"]⟩),
   ("16", ⟨"Unable to read the default settings of a user-configured password store",
      ["action", "error", "storeId", "storePath", "storeName"]⟩),
   ("17", ⟨"Unable to read the default settings of the default password store",
      ["action", "error", "storePath"]⟩),
   ("18", ⟨"Unable to list files in a password store",
      ["action", "error", "storeId", "storePath", "storeName"]⟩),
   ("19", ⟨"Unable to determine a relative path for a file in a password store",
      ["action", "error", "storeId", "storePath", "storeName", "file"]⟩),
   ("20", ⟨"Invalid password store ID", ["action", "storeId"]⟩),
   ("21", ⟨"Invalid gpg path", ["action", "error", "gpgPath"]⟩),
   ("22", ⟨"Unable to detect the location of the gpg binary", ["action", "error"]⟩),
   ("23", ⟨"Invalid password file extension", ["action", "file"]⟩),
   ("24", ⟨"Unable to decrypt the password file",
      ["action", "error", "storeId", "storePath", "storeName", "file"]⟩)]

/-- The own-property lookup `HostError.KNOWN_ERRORS[key]`. -/
def HostError.knownError : List (String × ErrorSchema) → String → Option ErrorSchema
  | [], _ => none
  | (k, s) :: rest, key => if k = key then some s else HostError.knownError rest key

/-- The test `code in HostError.KNOWN_ERRORS`: the code is converted to a
property key, and `in` holds for an own key of the table and for every
property the table inherits from `Object.prototype`. -/
def HostError.inKnownErrors (code : JSValue) : Bool :=
  (HostError.knownError HostError.KNOWN_ERRORS code.toJSString).isSome
    || decide (code.toJSString ∈ objectPrototypeKeys)

/-- The condition of line 38:
`response.status !== "error" || response.params === undefined`. -/
def HostError.isInvalidResponse (response : Response) : Bool :=
  decide (response.status ≠ JSValue.string "error") || response.params.isNone

/-- The message handed to `super` (lines 38-43): the fixed text for an invalid
response, otherwise `response.params.message`, where `undefined` leaves the
message of an `Error` empty and any other value is converted to a string. -/
def HostError.initialMessage (response : Response) : String :=
  if HostError.isInvalidResponse response then "Invalid error response"
  else
    match response.params with
    | none => ""
    | some raw =>
      match Obj.get raw "message" with
      | .undefined => ""
      | v => v.toJSString

/-- The first loop (lines 53-55): every expected parameter is set to the text
`n/a` on the initially empty `this.params`. -/
def HostError.seedParams (expectedParams : List String) : Obj :=
  expectedParams.foldl (fun o param => Obj.set o param (JSValue.string "n/a")) []

/-- The fields written by the second loop. -/
structure Reconciled where
  params : Obj
  unexpectedParams : Obj
  rawResponse : Option Response
  deriving DecidableEq

/-- One iteration of the second loop (lines 57-62). `this.params` holds only
expected parameter names, none of which shadows `hasOwnProperty`. -/
def HostError.reconcileStep (response : Response) (raw : Obj) (st : Reconciled)
    (param : String) : Reconciled :=
  if Obj.hasOwnProperty st.params param then
    { st with params := Obj.set st.params param (Obj.get raw param) }
  else
    { st with
      unexpectedParams := Obj.set st.unexpectedParams param (Obj.get raw param)
      rawResponse := some response }

/-- The second loop (lines 56-63) over `Object.keys(response.params)`. -/
def HostError.reconcile (response : Response) (raw : Obj) (st : Reconciled) : Reconciled :=
  (Obj.keys raw).foldl (HostError.reconcileStep response raw) st

/-- The constructor `new HostError(response)` (lines 37-77). For a code that
`in` finds only on the prototype chain, `KNOWN_ERRORS[code].expectedParams` is
`undefined` and the first `for ... of` throws; for an absent `params`,
`Object.keys(response.params)` throws. The stack capture of lines 70-76 touches
none of the fields modelled here. -/
def HostError.construct (response : Response) : Completion HostError :=
  let message := HostError.initialMessage response
  let rawResponse := if HostError.isInvalidResponse response then some response else none
  if HostError.inKnownErrors response.code then
    match HostError.knownError HostError.KNOWN_ERRORS response.code.toJSString with
    | none => .throw (.typeError "undefined is not iterable")
    | some schema =>
      let seeded := HostError.seedParams schema.expectedParams
      match response.params with
      | none => .throw (.typeError "Cannot convert undefined or null to object")
      | some raw =>
        let st := HostError.reconcile response raw ⟨seeded, [], rawResponse⟩
        .normal
          { message := message
            name := "HostError"
            alreadyLogged := false
            version := response.version
            code := response.code
            params := st.params
            unexpectedParams := some st.unexpectedParams
            genericDescription := schema.description
            rawResponse := st.rawResponse }
  else
    .normal
      { message := message
        name := "HostError"
        alreadyLogged := false
        version := response.version
        code := response.code
        params := []
        unexpectedParams := response.params
        genericDescription := "Unknown error code"
        rawResponse := some response }

/-- The constructor `new ExtensionError(message)` (lines 10-22). -/
def ExtensionError.construct (message : String) : ExtensionError :=
  { message := message, name := "ExtensionError", alreadyLogged := false }

/-! ## Version formatting -/

/-- The text of a version with the given components,
`major.minor.patch` in decimal. -/
def dottedVersion (major minor patch : Int) : String :=
  toString major ++ "." ++ toString minor ++ "." ++ toString patch

/-- The getter `versionString` (lines 79-88), as a function of `this.version`;
the first branch is the one taken when `typeof this.version === "number"`.
`%` is the truncating remainder; the quotient by 1000 is taken of a multiple
of 1000 and is exact. -/
def versionString (version : JSValue) : String :=
  match version with
  | .number v =>
    let patch := Int.tmod v 1000
    let minor := Int.tmod (v - patch) 1000000 / 1000
    let major := Int.fdiv v 1000000
    dottedVersion major minor patch
  | other => "\"" ++ other.toJSString ++ "\" (invalid)"

/-- The getter on an instance. -/
def HostError.versionString (e : HostError) : String := Browserpass.versionString e.version

/-! ## Logging -/

/-- One call on the console of the background page, which
`chrome.runtime.getBackgroundPage()` is taken to return; the console is the
list of the calls made on it, in order. -/
inductive LogEntry where
  | errorExtension (e : ExtensionError)
  | errorHost (e : HostError)
  | errorText (text : String)
  | table (data : Option Obj) (columns : List String)
  | errorRaw (label : String) (response : Response)
  deriving DecidableEq

/-- The state left by a call of `logToConsole`: the instance, the console
entries so far, and the error the call threw, if any. -/
structure LogResult (ε : Type) where
  self : ε
  console : List LogEntry
  thrown : Option JSError
  deriving DecidableEq

/-- The method `ExtensionError.logToConsole` (lines 24-29). -/
def ExtensionError.logToConsole (e : ExtensionError) (console : List LogEntry) :
    LogResult ExtensionError :=
  if !e.alreadyLogged then
    { self := { e with alreadyLogged := true }
      console := console ++ [LogEntry.errorExtension e]
      thrown := none }
  else
    { self := e, console := console, thrown := none }

/-- The resolution of a free identifier of `errors.js`: the file declares no
variable of its own besides its functions and classes, so the name is looked
up among the object-valued bindings `globals` of the global object, and an
unbound name raises a ReferenceError. -/
def resolveIdentifier (globals : List (String × Obj)) (name : String) : Completion Obj :=
  match globals.lookup name with
  | some o => .normal o
  | none => .throw (.referenceError name)

/-- The method `HostError.logToConsole` (lines 90-110). Lines 98 and 101 read
the free identifiers `params` and `unexpectedParams`, not fields of `this`. A
throw leaves the entries already written and skips the rest of the body,
line 108 included. -/
def HostError.logToConsole (globals : List (String × Obj)) (e : HostError)
    (console : List LogEntry) : LogResult HostError :=
  if !e.alreadyLogged then
    let c1 := console ++ [LogEntry.errorHost e]
    let c2 := c1 ++ [LogEntry.errorText
      ("Host version : " ++ e.versionString ++ "\n" ++
        "Generic error: " ++ e.genericDescription ++ " (" ++ e.code.toJSString ++ ")")]
    match resolveIdentifier globals "params" with
    | .throw err => { self := e, console := c2, thrown := some err }
    | .normal p =>
      let c3 :=
        if (Obj.keys p).length > 0 then
          c2 ++ [LogEntry.table (some e.params) ["Parameter", "Value"]]
        else c2
      match resolveIdentifier globals "unexpectedParams" with
      | .throw err => { self := e, console := c3, thrown := some err }
      | .normal u =>
        let c4 :=
          if (Obj.keys u).length > 0 then
            c3 ++ [LogEntry.errorText "There were unexpected parameters:",
                   LogEntry.table e.unexpectedParams ["Parameter", "Value"]]
          else c3
        let c5 :=
          match e.rawResponse with
          | some r => c4 ++ [LogEntry.errorRaw "Raw response: " r]
          | none => c4
        { self := { e with alreadyLogged := true }, console := c5, thrown := none }
  else
    { self := e, console := console, thrown := none }

/-- Two calls of `ExtensionError.logToConsole` in a row on the same instance. -/
def ExtensionError.logTwice (e : ExtensionError) (console : List LogEntry) :
    LogResult ExtensionError :=
  let first := ExtensionError.logToConsole e console
  ExtensionError.logToConsole first.self first.console

/-- Two calls of `HostError.logToConsole` in a row on the same instance. -/
def HostError.logTwice (globals : List (String × Obj)) (e : HostError)
    (console : List LogEntry) : LogResult HostError :=
  let first := HostError.logToConsole globals e console
  HostError.logToConsole globals first.self first.console

end Browserpass

namespace Browserpass

/-! ## Objects: keys, reads and assignments -/

theorem Obj.hasOwnProperty_iff (o : Obj) (k : String) :
    Obj.hasOwnProperty o k = true ↔ k ∈ Obj.keys o := by
  simp [Obj.hasOwnProperty]

theorem Obj.keys_replace (o : Obj) (k : String) (v : JSValue) :
    Obj.keys (Obj.replace o k v) = Obj.keys o := by
  induction o with
  | nil => rfl
  | cons p rest ih =>
    obtain ⟨k', v'⟩ := p
    simp only [Obj.keys] at ih
    by_cases h : k' = k <;> simp [Obj.replace, Obj.keys, h, ih]

theorem Obj.get_replace_self (o : Obj) (k : String) (v : JSValue) (h : k ∈ Obj.keys o) :
    Obj.get (Obj.replace o k v) k = v := by
  induction o with
  | nil => simp [Obj.keys] at h
  | cons p rest ih =>
    obtain ⟨k', v'⟩ := p
    by_cases hk : k' = k
    · simp [Obj.replace, Obj.get, hk]
    · have hmem : k ∈ Obj.keys rest := by
        simp only [Obj.keys, List.map_cons, List.mem_cons] at h
        rcases h with h | h
        · exact absurd h.symm hk
        · exact h
      simp [Obj.replace, Obj.get, hk, ih hmem]

theorem Obj.get_replace_other (o : Obj) (k k' : String) (v : JSValue) (h : k' ≠ k) :
    Obj.get (Obj.replace o k v) k' = Obj.get o k' := by
  induction o with
  | nil => rfl
  | cons p rest ih =>
    obtain ⟨k₀, v₀⟩ := p
    by_cases hk : k₀ = k
    · subst hk
      have h2 : ¬ k₀ = k' := fun e => h e.symm
      simp [Obj.replace, Obj.get, h2, ih]
    · simp [Obj.replace, Obj.get, hk, ih]

theorem Obj.get_append_single_self (o : Obj) (k : String) (v : JSValue)
    (h : k ∉ Obj.keys o) : Obj.get (o ++ [(k, v)]) k = v := by
  induction o with
  | nil => simp [Obj.get]
  | cons p rest ih =>
    obtain ⟨k₀, v₀⟩ := p
    simp only [Obj.keys, List.map_cons, List.mem_cons, not_or] at h
    have h2 : ¬ k₀ = k := fun e => h.1 e.symm
    simp only [List.cons_append, Obj.get, h2, if_false]
    exact ih h.2

theorem Obj.get_append_single_other (o : Obj) (k k' : String) (v : JSValue)
    (h : k' ≠ k) : Obj.get (o ++ [(k, v)]) k' = Obj.get o k' := by
  induction o with
  | nil =>
    have h2 : ¬ k = k' := fun e => h e.symm
    simp [Obj.get, h2]
  | cons p rest ih =>
    obtain ⟨k₀, v₀⟩ := p
    have e : (k₀, v₀) :: rest ++ [(k, v)] = (k₀, v₀) :: (rest ++ [(k, v)]) := rfl
    rw [e]
    simp only [Obj.get, ih]

theorem Obj.get_of_not_mem (o : Obj) (k : String) (h : k ∉ Obj.keys o) :
    Obj.get o k = JSValue.undefined := by
  induction o with
  | nil => rfl
  | cons p rest ih =>
    obtain ⟨k₀, v₀⟩ := p
    simp only [Obj.keys, List.map_cons, List.mem_cons, not_or] at h
    have h2 : ¬ k₀ = k := fun e => h.1 e.symm
    simp only [Obj.get, h2, if_false]
    exact ih h.2

theorem Obj.keys_set_of_mem (o : Obj) (k : String) (v : JSValue) (h : k ∈ Obj.keys o) :
    Obj.keys (Obj.set o k v) = Obj.keys o := by
  simp [Obj.set, (Obj.hasOwnProperty_iff o k).2 h, Obj.keys_replace]

theorem Obj.get_set_of_mem (o : Obj) (k k' : String) (v : JSValue) (h : k ∈ Obj.keys o) :
    Obj.get (Obj.set o k v) k' = if k' = k then v else Obj.get o k' := by
  have hs : Obj.set o k v = Obj.replace o k v := by
    simp [Obj.set, (Obj.hasOwnProperty_iff o k).2 h]
  rw [hs]
  by_cases hk : k' = k
  · subst hk
    simp [Obj.get_replace_self o k' v h]
  · simp [hk, Obj.get_replace_other o k k' v hk]

theorem Obj.set_of_not_mem (o : Obj) (k : String) (v : JSValue) (h : k ∉ Obj.keys o) :
    Obj.set o k v = if k = "__proto__" then o else o ++ [(k, v)] := by
  have : Obj.hasOwnProperty o k = false := by
    cases hb : Obj.hasOwnProperty o k with
    | false => rfl
    | true => exact absurd ((Obj.hasOwnProperty_iff o k).1 hb) h
  simp [Obj.set, this]

theorem Obj.get_set_self (o : Obj) (k : String) (v : JSValue) (h : k ≠ "__proto__") :
    Obj.get (Obj.set o k v) k = v := by
  by_cases hm : k ∈ Obj.keys o
  · simp [Obj.get_set_of_mem o k k v hm]
  · rw [Obj.set_of_not_mem o k v hm]
    simp [h, Obj.get_append_single_self o k v hm]

theorem Obj.get_set_other (o : Obj) (k k' : String) (v : JSValue) (h : k' ≠ k) :
    Obj.get (Obj.set o k v) k' = Obj.get o k' := by
  by_cases hm : k ∈ Obj.keys o
  · simp [Obj.get_set_of_mem o k k' v hm, h]
  · rw [Obj.set_of_not_mem o k v hm]
    by_cases hp : k = "__proto__"
    · simp [hp]
    · simp [hp, Obj.get_append_single_other o k k' v h]

theorem Obj.keys_set_of_not_mem (o : Obj) (k : String) (v : JSValue) (h : k ∉ Obj.keys o) :
    Obj.keys (Obj.set o k v) = if k = "__proto__" then Obj.keys o else Obj.keys o ++ [k] := by
  rw [Obj.set_of_not_mem o k v h]
  by_cases hp : k = "__proto__"
  · simp [hp]
  · simp [hp, Obj.keys]

/-! ## The reconciliation loop -/

theorem HostError.reconcileStep_expected (response : Response) (raw : Obj) (st : Reconciled)
    (param : String) (h : param ∈ Obj.keys st.params) :
    HostError.reconcileStep response raw st param =
      { st with params := Obj.set st.params param (Obj.get raw param) } := by
  simp [HostError.reconcileStep, (Obj.hasOwnProperty_iff st.params param).2 h]

theorem HostError.reconcileStep_unexpected (response : Response) (raw : Obj) (st : Reconciled)
    (param : String) (h : param ∉ Obj.keys st.params) :
    HostError.reconcileStep response raw st param =
      { st with
        unexpectedParams := Obj.set st.unexpectedParams param (Obj.get raw param)
        rawResponse := some response } := by
  have hb : Obj.hasOwnProperty st.params param = false := by
    cases hb : Obj.hasOwnProperty st.params param with
    | false => rfl
    | true => exact absurd ((Obj.hasOwnProperty_iff st.params param).1 hb) h
  simp [HostError.reconcileStep, hb]

theorem HostError.reconcileStep_keys_params (response : Response) (raw : Obj)
    (st : Reconciled) (param : String) :
    Obj.keys (HostError.reconcileStep response raw st param).params = Obj.keys st.params := by
  by_cases h : param ∈ Obj.keys st.params
  · rw [HostError.reconcileStep_expected response raw st param h]
    exact Obj.keys_set_of_mem st.params param _ h
  · rw [HostError.reconcileStep_unexpected response raw st param h]

theorem HostError.foldl_keys_params (response : Response) (raw : Obj) (ks : List String) :
    ∀ st : Reconciled,
      Obj.keys (ks.foldl (HostError.reconcileStep response raw) st).params
        = Obj.keys st.params := by
  induction ks with
  | nil => intro st; rfl
  | cons k ks ih =>
    intro st
    rw [List.foldl_cons, ih, HostError.reconcileStep_keys_params]

theorem HostError.foldl_all_expected (response : Response) (raw : Obj) (ks : List String) :
    ∀ st : Reconciled, (∀ k ∈ ks, k ∈ Obj.keys st.params) →
      (ks.foldl (HostError.reconcileStep response raw) st).unexpectedParams
          = st.unexpectedParams ∧
      (ks.foldl (HostError.reconcileStep response raw) st).rawResponse = st.rawResponse := by
  induction ks with
  | nil => intro st _; exact ⟨rfl, rfl⟩
  | cons k ks ih =>
    intro st h
    have hk : k ∈ Obj.keys st.params := h k (List.mem_cons_self k ks)
    have hstep := HostError.reconcileStep_expected response raw st k hk
    have hkeys := HostError.reconcileStep_keys_params response raw st k
    have h2 : ∀ k' ∈ ks, k' ∈ Obj.keys (HostError.reconcileStep response raw st k).params := by
      intro k' hk'
      rw [hkeys]
      exact h k' (List.mem_cons_of_mem k hk')
    obtain ⟨hu, hr⟩ := ih _ h2
    rw [List.foldl_cons, hu, hr, hstep]
    exact ⟨rfl, rfl⟩

theorem HostError.foldl_get_params (response : Response) (raw : Obj) (ks : List String) :
    ∀ (st : Reconciled) (k : String), k ∈ Obj.keys st.params →
      Obj.get (ks.foldl (HostError.reconcileStep response raw) st).params k
        = if k ∈ ks then Obj.get raw k else Obj.get st.params k := by
  induction ks with
  | nil => intro st k _; simp
  | cons p ks ih =>
    intro st k hk
    have hkeys := HostError.reconcileStep_keys_params response raw st p
    rw [List.foldl_cons, ih _ k (by rw [hkeys]; exact hk)]
    by_cases hin : k ∈ ks
    · simp [hin]
    · simp only [hin, if_false, List.mem_cons, or_false]
      by_cases hp : p ∈ Obj.keys st.params
      · rw [HostError.reconcileStep_expected response raw st p hp]
        simp only [Obj.get_set_of_mem st.params p k _ hp]
        by_cases hkp : k = p
        · subst hkp; simp
        · simp [hkp]
      · rw [HostError.reconcileStep_unexpected response raw st p hp]
        have hkp : k ≠ p := fun e => hp (e ▸ hk)
        simp [hkp]

theorem HostError.foldl_get_unexpected (response : Response) (raw : Obj) (ks : List String) :
    ∀ (st : Reconciled) (k : String), k ∉ Obj.keys st.params → k ≠ "__proto__" →
      Obj.get (ks.foldl (HostError.reconcileStep response raw) st).unexpectedParams k
        = if k ∈ ks then Obj.get raw k else Obj.get st.unexpectedParams k := by
  induction ks with
  | nil => intro st k _ _; simp
  | cons p ks ih =>
    intro st k hk hproto
    have hkeys := HostError.reconcileStep_keys_params response raw st p
    rw [List.foldl_cons, ih _ k (by rw [hkeys]; exact hk) hproto]
    by_cases hin : k ∈ ks
    · simp [hin]
    · simp only [hin, if_false, List.mem_cons, or_false]
      by_cases hp : p ∈ Obj.keys st.params
      · rw [HostError.reconcileStep_expected response raw st p hp]
        have hkp : k ≠ p := fun e => hk (e ▸ hp)
        simp [hkp]
      · rw [HostError.reconcileStep_unexpected response raw st p hp]
        by_cases hkp : k = p
        · subst hkp
          simp [Obj.get_set_self st.unexpectedParams k _ hproto]
        · simp [hkp, Obj.get_set_other st.unexpectedParams p k _ hkp]

theorem HostError.foldl_rawResponse (response : Response) (raw : Obj) (ks : List String) :
    ∀ st : Reconciled, (∃ k ∈ ks, k ∉ Obj.keys st.params) →
      (ks.foldl (HostError.reconcileStep response raw) st).rawResponse = some response := by
  induction ks with
  | nil => intro st h; obtain ⟨k, hk, _⟩ := h; cases hk
  | cons p ks ih =>
    intro st h
    have hkeys := HostError.reconcileStep_keys_params response raw st p
    rw [List.foldl_cons]
    by_cases hlater : ∃ k ∈ ks, k ∉ Obj.keys st.params
    · apply ih
      obtain ⟨k, hk, hn⟩ := hlater
      exact ⟨k, hk, by rw [hkeys]; exact hn⟩
    · have hall : ∀ k ∈ ks, k ∈ Obj.keys st.params := by
        intro k hk
        by_contra hn
        exact hlater ⟨k, hk, hn⟩
      have hp : p ∉ Obj.keys st.params := by
        obtain ⟨k, hk, hn⟩ := h
        rcases List.mem_cons.1 hk with e | hk'
        · exact e ▸ hn
        · exact absurd (hall k hk') hn
      have h2 : ∀ k ∈ ks, k ∈ Obj.keys (HostError.reconcileStep response raw st p).params := by
        intro k hk
        rw [hkeys]
        exact hall k hk
      rw [(HostError.foldl_all_expected response raw ks _ h2).2,
        HostError.reconcileStep_unexpected response raw st p hp]

/-! ## Decimal numerals -/

theorem digitChar_isDigit (d : Nat) (h : d < 10) : (Nat.digitChar d).isDigit = true := by
  interval_cases d <;> decide

theorem toDigitsCore_chars (fuel : Nat) :
    ∀ (n : Nat) (ds : List Char) (c : Char), c ∈ Nat.toDigitsCore 10 fuel n ds →
      c ∈ ds ∨ c.isDigit = true := by
  induction fuel with
  | zero => intro n ds c h; left; simpa [Nat.toDigitsCore] using h
  | succ fuel ih =>
    intro n ds c h
    simp only [Nat.toDigitsCore] at h
    have hd : (Nat.digitChar (n % 10)).isDigit = true :=
      digitChar_isDigit (n % 10) (Nat.mod_lt n (by decide))
    split at h
    · rcases List.mem_cons.1 h with e | e
      · right; rw [e]; exact hd
      · left; exact e
    · rcases ih _ _ c h with e | e
      · rcases List.mem_cons.1 e with e | e
        · right; rw [e]; exact hd
        · left; exact e
      · right; exact e

theorem natToString_chars (n : Nat) (c : Char) (h : c ∈ (toString n).data) :
    c.isDigit = true := by
  have h2 : c ∈ Nat.toDigitsCore 10 (n + 1) n [] := h
  rcases toDigitsCore_chars (n + 1) n [] c h2 with e | e
  · cases e
  · exact e

theorem intToString_chars (i : Int) (c : Char) (h : c ∈ (toString i).data) :
    c = '-' ∨ c.isDigit = true := by
  cases i with
  | ofNat m => right; exact natToString_chars m c h
  | negSucc m =>
    have h2 : c ∈ ("-" ++ toString (m + 1)).data := h
    rw [String.data_append] at h2
    rcases List.mem_append.1 h2 with e | e
    · left; simpa using e
    · right; exact natToString_chars (m + 1) c e

theorem dottedVersion_chars (major minor patch : Int) (c : Char)
    (h : c ∈ (dottedVersion major minor patch).data) :
    c = '-' ∨ c = '.' ∨ c.isDigit = true := by
  simp only [dottedVersion, String.data_append, List.mem_append] at h
  rcases h with (((h | h) | h) | h) | h
  · rcases intToString_chars major c h with e | e
    · exact Or.inl e
    · exact Or.inr (Or.inr e)
  · right; left; simpa using h
  · rcases intToString_chars minor c h with e | e
    · exact Or.inl e
    · exact Or.inr (Or.inr e)
  · right; left; simpa using h
  · rcases intToString_chars patch c h with e | e
    · exact Or.inl e
    · exact Or.inr (Or.inr e)

theorem natCast_toString (n : Nat) : toString ((n : Nat) : Int) = toString n := rfl

/-! ## Version formatting: properties -/

/-- The quotient by 1000 in `versionString` is exact: its dividend is a
multiple of 1000 for every integer version. -/
theorem versionString_minor_exact (v : Int) :
    (1000 : Int) ∣ Int.tmod (v - Int.tmod v 1000) 1000000 := by
  have h1 : v - Int.tmod v 1000 = 1000 * Int.tdiv v 1000 := by
    have := Int.tmod_add_tdiv v 1000
    omega
  rw [h1]
  have h2 := Int.tmod_add_tdiv (1000 * Int.tdiv v 1000) 1000000
  omega

/-- The text computed for a packed version number. -/
theorem versionString_of_packed (major minor patch : Nat)
    (hminor : minor ≤ 999) (hpatch : patch ≤ 999) :
    versionString
        (JSValue.number ((major : Int) * 1000000 + (minor : Int) * 1000 + (patch : Int)))
      = toString major ++ "." ++ toString minor ++ "." ++ toString patch := by
  have hv : (0 : Int) ≤ (major : Int) * 1000000 + (minor : Int) * 1000 + (patch : Int) := by
    omega
  have hp : Int.tmod ((major : Int) * 1000000 + (minor : Int) * 1000 + (patch : Int)) 1000
      = (patch : Int) := by
    rw [Int.tmod_eq_emod hv (by decide)]
    omega
  have hm : Int.tmod ((major : Int) * 1000000 + (minor : Int) * 1000 + (patch : Int)
      - (patch : Int)) 1000000 / 1000 = (minor : Int) := by
    rw [Int.tmod_eq_emod (by omega) (by decide)]
    omega
  have hM : Int.fdiv ((major : Int) * 1000000 + (minor : Int) * 1000 + (patch : Int)) 1000000
      = (major : Int) := by
    rw [Int.fdiv_eq_ediv _ (by decide)]
    omega
  simp only [versionString, hp, hm, hM, dottedVersion, natCast_toString]

/-- The text computed for a version that is not a number: the raw value between
double quotes followed by ` (invalid)`, which is not the dotted text of any
three integers. -/
theorem versionString_of_not_number (version : JSValue)
    (h : ∀ n : Int, version ≠ JSValue.number n) :
    versionString version = "\"" ++ version.toJSString ++ "\" (invalid)" ∧
    ∀ major minor patch : Int, versionString version ≠ dottedVersion major minor patch := by
  have heq : versionString version = "\"" ++ version.toJSString ++ "\" (invalid)" := by
    cases version with
    | undefined => rfl
    | number n => exact absurd rfl (h n)
    | string s => rfl
  refine ⟨heq, ?_⟩
  intro major minor patch hd
  have hq : Char.ofNat 34 ∈ (versionString version).data := by
    rw [heq]
    simp only [String.data_append, List.mem_append]
    left; left; decide
  rw [hd] at hq
  rcases dottedVersion_chars major minor patch (Char.ofNat 34) hq with e | e | e
  · exact absurd e (by decide)
  · exact absurd e (by decide)
  · exact absurd e (by decide)

/-- Claim C7: for components `major`, `minor`, `patch` between 0 and 999, a
`HostError` whose version is the number `major*1000000 + minor*1000 + patch`
has as `versionString` the decimal numerals of the three components joined by
dots. -/
theorem versionString_packed (e : HostError) (major minor patch : Nat)
    (_hmajor : major ≤ 999) (hminor : minor ≤ 999) (hpatch : patch ≤ 999)
    (hversion : e.version
      = JSValue.number ((major : Int) * 1000000 + (minor : Int) * 1000 + (patch : Int))) :
    e.versionString = toString major ++ "." ++ toString minor ++ "." ++ toString patch := by
  rw [HostError.versionString, hversion]
  exact versionString_of_packed major minor patch hminor hpatch

/-- The version 1002003 of the specification is formatted as `1.2.3`. -/
theorem versionString_packed_witness :
    HostError.versionString
      { message := ""
        name := "HostError"
        alreadyLogged := false
        version := JSValue.number 1002003
        code := JSValue.number 20
        params := []
        unexpectedParams := some []
        genericDescription := "Invalid password store ID"
        rawResponse := none } = "1.2.3" :=
  versionString_packed
    { message := ""
      name := "HostError"
      alreadyLogged := false
      version := JSValue.number 1002003
      code := JSValue.number 20
      params := []
      unexpectedParams := some []
      genericDescription := "Invalid password store ID"
      rawResponse := none }
    1 2 3 (by decide) (by decide) (by decide) (by decide)

/-- Claim C8: for a `HostError` whose version is not a number (a string, or an
absent version), `versionString` is the raw value between double quotes
followed by ` (invalid)`; this text contains the raw value and is not the
dotted text of any three integers. -/
theorem versionString_invalid (e : HostError) (h : ∀ n : Int, e.version ≠ JSValue.number n) :
    e.versionString = "\"" ++ e.version.toJSString ++ "\" (invalid)" ∧
    e.version.toJSString.data <:+: e.versionString.data ∧
    ∀ major minor patch : Int, e.versionString ≠ dottedVersion major minor patch := by
  obtain ⟨heq, hdot⟩ := versionString_of_not_number e.version h
  refine ⟨heq, ?_, hdot⟩
  rw [HostError.versionString, heq]
  simp only [String.data_append]
  exact ⟨"\"".data, "\" (invalid)".data, rfl⟩

/-- The version `bogus` of the specification. -/
theorem versionString_invalid_witness :
    HostError.versionString
      { message := ""
        name := "HostError"
        alreadyLogged := false
        version := JSValue.string "bogus"
        code := JSValue.number 20
        params := []
        unexpectedParams := some []
        genericDescription := "Invalid password store ID"
        rawResponse := none } = "\"bogus\" (invalid)" :=
  (versionString_invalid
    { message := ""
      name := "HostError"
      alreadyLogged := false
      version := JSValue.string "bogus"
      code := JSValue.number 20
      params := []
      unexpectedParams := some []
      genericDescription := "Invalid password store ID"
      rawResponse := none }
    (fun _ h => JSValue.noConfusion h)).1

/-! ## The schema table -/

theorem HostError.knownError_mem (table : List (String × ErrorSchema)) (key : String)
    (schema : ErrorSchema) (h : HostError.knownError table key = some schema) :
    (key, schema) ∈ table := by
  induction table with
  | nil => simp [HostError.knownError] at h
  | cons p rest ih =>
    obtain ⟨k, s⟩ := p
    by_cases hk : k = key
    · simp only [HostError.knownError, hk, if_true, Option.some.injEq] at h
      rw [hk, h]
      exact List.mem_cons_self _ _
    · simp only [HostError.knownError, hk, if_false] at h
      exact List.mem_cons_of_mem _ (ih h)

theorem HostError.seedParams_known :
    ∀ p ∈ HostError.KNOWN_ERRORS,
      HostError.seedParams p.2.expectedParams
        = p.2.expectedParams.map (fun k => (k, JSValue.string "n/a")) := by
  decide

theorem HostError.message_not_expected :
    ∀ p ∈ HostError.KNOWN_ERRORS, "message" ∉ p.2.expectedParams := by
  decide

theorem Obj.keys_map_const (ks : List String) (v : JSValue) :
    Obj.keys (ks.map (fun k => (k, v))) = ks := by
  induction ks with
  | nil => rfl
  | cons k ks ih =>
    simp only [Obj.keys] at ih
    simp [Obj.keys, ih]

theorem Obj.get_map_const (ks : List String) (v : JSValue) (k : String) (h : k ∈ ks) :
    Obj.get (ks.map (fun k => (k, v))) k = v := by
  induction ks with
  | nil => cases h
  | cons k₀ ks ih =>
    by_cases hk : k₀ = k
    · simp [Obj.get, hk]
    · rcases List.mem_cons.1 h with e | e
      · exact absurd e.symm hk
      · simp [Obj.get, hk, ih e]

theorem HostError.keys_seedParams (key : String) (schema : ErrorSchema)
    (h : HostError.knownError HostError.KNOWN_ERRORS key = some schema) :
    Obj.keys (HostError.seedParams schema.expectedParams) = schema.expectedParams := by
  rw [HostError.seedParams_known _ (HostError.knownError_mem _ _ _ h)]
  exact Obj.keys_map_const _ _

theorem HostError.get_seedParams (key : String) (schema : ErrorSchema)
    (h : HostError.knownError HostError.KNOWN_ERRORS key = some schema)
    (k : String) (hk : k ∈ schema.expectedParams) :
    Obj.get (HostError.seedParams schema.expectedParams) k = JSValue.string "n/a" := by
  rw [HostError.seedParams_known _ (HostError.knownError_mem _ _ _ h)]
  exact Obj.get_map_const _ _ k hk

/-! ## The constructor, branch by branch -/

/-- The instance built for a code that is an own key of the table when
`params` is present. -/
theorem HostError.construct_known (response : Response) (schema : ErrorSchema) (raw : Obj)
    (hcode : HostError.knownError HostError.KNOWN_ERRORS response.code.toJSString
      = some schema)
    (hparams : response.params = some raw) :
    HostError.construct response = Completion.normal
      { message := HostError.initialMessage response
        name := "HostError"
        alreadyLogged := false
        version := response.version
        code := response.code
        params := (HostError.reconcile response raw
          ⟨HostError.seedParams schema.expectedParams, [],
            if HostError.isInvalidResponse response then some response else none⟩).params
        unexpectedParams := some (HostError.reconcile response raw
          ⟨HostError.seedParams schema.expectedParams, [],
            if HostError.isInvalidResponse response then some response else none⟩).unexpectedParams
        genericDescription := schema.description
        rawResponse := (HostError.reconcile response raw
          ⟨HostError.seedParams schema.expectedParams, [],
            if HostError.isInvalidResponse response then some response else none⟩).rawResponse } := by
  simp [HostError.construct, HostError.inKnownErrors, hcode, hparams]

/-- The instance built for a code that `in` does not find. -/
theorem HostError.construct_unknown (response : Response)
    (hcode : HostError.inKnownErrors response.code = false) :
    HostError.construct response = Completion.normal
      { message := HostError.initialMessage response
        name := "HostError"
        alreadyLogged := false
        version := response.version
        code := response.code
        params := []
        unexpectedParams := response.params
        genericDescription := "Unknown error code"
        rawResponse := some response } := by
  simp [HostError.construct, hcode]

/-- Claim C5: for a known code and a response with status `error` whose
`params` has only keys expected for that code, the instance is built, the keys
of its `params` are exactly the expected parameters, each holding the raw value
when the response supplies it and `n/a` otherwise, `unexpectedParams` is
empty, and no raw response is retained. -/
theorem expected_params_reconciled (response : Response) (schema : ErrorSchema) (raw : Obj)
    (hstatus : response.status = JSValue.string "error")
    (hcode : HostError.knownError HostError.KNOWN_ERRORS response.code.toJSString
      = some schema)
    (hparams : response.params = some raw)
    (hkeys : ∀ k ∈ Obj.keys raw, k ∈ schema.expectedParams) :
    ∃ e : HostError, HostError.construct response = Completion.normal e ∧
      Obj.keys e.params = schema.expectedParams ∧
      (∀ k ∈ schema.expectedParams,
        Obj.get e.params k
          = if k ∈ Obj.keys raw then Obj.get raw k else JSValue.string "n/a") ∧
      e.unexpectedParams = some [] ∧
      e.rawResponse = none := by
  have hseed := HostError.keys_seedParams _ schema hcode
  have hall : ∀ k ∈ Obj.keys raw, k ∈ Obj.keys (HostError.seedParams schema.expectedParams) := by
    intro k hk
    rw [hseed]
    exact hkeys k hk
  refine ⟨_, HostError.construct_known response schema raw hcode hparams, ?_, ?_, ?_, ?_⟩
  · simp only [HostError.reconcile]
    rw [HostError.foldl_keys_params]
    exact hseed
  · intro k hk
    simp only [HostError.reconcile]
    rw [HostError.foldl_get_params response raw (Obj.keys raw) _ k (by simpa [hseed] using hk)]
    by_cases hin : k ∈ Obj.keys raw
    · simp [hin]
    · simp [hin, HostError.get_seedParams _ schema hcode k hk]
  · simp only [HostError.reconcile]
    rw [(HostError.foldl_all_expected response raw (Obj.keys raw) _ hall).1]
  · simp only [HostError.reconcile]
    rw [(HostError.foldl_all_expected response raw (Obj.keys raw) _ hall).2]
    simp [HostError.isInvalidResponse, hstatus, hparams]

/-- The scenario of the specification: code 20 with `action` and `storeId`. -/
theorem expected_params_reconciled_witness :
    ∃ e : HostError,
      HostError.construct ⟨JSValue.string "error", JSValue.number 3001000, JSValue.number 20,
        some [("action", JSValue.string "list"), ("storeId", JSValue.string "x")]⟩
        = Completion.normal e ∧
      Obj.keys e.params = ["action", "storeId"] ∧
      (∀ k ∈ ["action", "storeId"],
        Obj.get e.params k
          = if k ∈ Obj.keys [("action", JSValue.string "list"), ("storeId", JSValue.string "x")]
            then Obj.get [("action", JSValue.string "list"), ("storeId", JSValue.string "x")] k
            else JSValue.string "n/a") ∧
      e.unexpectedParams = some [] ∧
      e.rawResponse = none :=
  expected_params_reconciled
    ⟨JSValue.string "error", JSValue.number 3001000, JSValue.number 20,
      some [("action", JSValue.string "list"), ("storeId", JSValue.string "x")]⟩
    ⟨"Invalid password store ID", ["action", "storeId"]⟩
    [("action", JSValue.string "list"), ("storeId", JSValue.string "x")]
    (by decide) (by decide) (by decide) (by decide)

/-- Claim C10: no entry of the table expects a parameter `message`; hence for
a known code and a response with status `error` whose `params` carries the
message `m`, the instance is built with message `m`, `message` is filed with
value `m` under `unexpectedParams` (which is therefore not empty), and the
response is retained as `rawResponse`. -/
theorem message_param_filed_as_unexpected (response : Response) (schema : ErrorSchema)
    (raw : Obj) (m : String)
    (hstatus : response.status = JSValue.string "error")
    (hcode : HostError.knownError HostError.KNOWN_ERRORS response.code.toJSString
      = some schema)
    (hparams : response.params = some raw)
    (hmessage : Obj.get raw "message" = JSValue.string m) :
    (∀ p ∈ HostError.KNOWN_ERRORS, "message" ∉ p.2.expectedParams) ∧
    ∃ (e : HostError) (unexpected : Obj),
      HostError.construct response = Completion.normal e ∧
      e.message = m ∧
      e.unexpectedParams = some unexpected ∧
      Obj.get unexpected "message" = JSValue.string m ∧
      unexpected ≠ [] ∧
      e.rawResponse = some response := by
  refine ⟨HostError.message_not_expected, ?_⟩
  have hseed := HostError.keys_seedParams _ schema hcode
  have hnot : "message" ∉ schema.expectedParams :=
    HostError.message_not_expected _ (HostError.knownError_mem _ _ _ hcode)
  have hmem : "message" ∈ Obj.keys raw := by
    by_contra hn
    rw [Obj.get_of_not_mem raw "message" hn] at hmessage
    exact JSValue.noConfusion hmessage
  have hget : Obj.get (HostError.reconcile response raw
      ⟨HostError.seedParams schema.expectedParams, [],
        if HostError.isInvalidResponse response then some response else none⟩).unexpectedParams
      "message" = JSValue.string m := by
    simp only [HostError.reconcile]
    rw [HostError.foldl_get_unexpected response raw (Obj.keys raw) _ "message"
      (by simpa [hseed] using hnot) (by decide)]
    simp [hmem, hmessage]
  refine ⟨_, _, HostError.construct_known response schema raw hcode hparams, ?_, rfl, hget,
    ?_, ?_⟩
  · simp [HostError.initialMessage, HostError.isInvalidResponse, hstatus, hparams, hmessage,
      JSValue.toJSString]
  · intro hnil
    rw [hnil] at hget
    simp [Obj.get] at hget
  · simp only [HostError.reconcile]
    exact HostError.foldl_rawResponse response raw (Obj.keys raw) _
      ⟨"message", hmem, by simpa [hseed] using hnot⟩

/-- A response for code 20 whose parameters are all expected except `message`. -/
theorem message_param_filed_as_unexpected_witness :
    ∃ (e : HostError) (unexpected : Obj),
      HostError.construct ⟨JSValue.string "error", JSValue.number 3001000, JSValue.number 20,
        some [("action", JSValue.string "list"), ("message", JSValue.string "no such store"),
          ("storeId", JSValue.string "x")]⟩ = Completion.normal e ∧
      e.message = "no such store" ∧
      e.unexpectedParams = some unexpected ∧
      Obj.get unexpected "message" = JSValue.string "no such store" ∧
      unexpected ≠ [] ∧
      e.rawResponse = some ⟨JSValue.string "error", JSValue.number 3001000, JSValue.number 20,
        some [("action", JSValue.string "list"), ("message", JSValue.string "no such store"),
          ("storeId", JSValue.string "x")]⟩ :=
  (message_param_filed_as_unexpected
    ⟨JSValue.string "error", JSValue.number 3001000, JSValue.number 20,
      some [("action", JSValue.string "list"), ("message", JSValue.string "no such store"),
        ("storeId", JSValue.string "x")]⟩
    ⟨"Invalid password store ID", ["action", "storeId"]⟩
    [("action", JSValue.string "list"), ("message", JSValue.string "no such store"),
      ("storeId", JSValue.string "x")]
    "no such store" (by decide) (by decide) (by decide) (by decide)).2

/-! ## Where the constructor completes -/

/-- The constructor completes normally exactly when the code is not found by
`in`, or is an own key of the table and `params` is present. -/
theorem HostError.construct_normal_iff (response : Response) :
    (∃ e, HostError.construct response = Completion.normal e) ↔
      HostError.inKnownErrors response.code = false ∨
      ((HostError.knownError HostError.KNOWN_ERRORS response.code.toJSString).isSome = true ∧
        response.params.isSome = true) := by
  cases hin : HostError.inKnownErrors response.code with
  | false =>
    simp only [true_or, iff_true]
    exact ⟨_, HostError.construct_unknown response hin⟩
  | true =>
    cases hk : HostError.knownError HostError.KNOWN_ERRORS response.code.toJSString with
    | none => simp [HostError.construct, hin, hk]
    | some schema =>
      cases hp : response.params with
      | none => simp [HostError.construct, hin, hk, hp]
      | some raw => simp [HostError.construct_known response schema raw hk hp]

/-- An integer code is never the name of an inherited property, so for a
numeric or absent code `in` holds exactly for the own keys of the table. -/
theorem HostError.inKnownErrors_number (n : Int) :
    HostError.inKnownErrors (JSValue.number n)
      = (HostError.knownError HostError.KNOWN_ERRORS (toString n)).isSome := by
  have hno : toString n ∉ objectPrototypeKeys := by
    intro hmem
    have hletter : ∀ key ∈ objectPrototypeKeys, ∃ c ∈ key.data,
        c ≠ '-' ∧ c.isDigit = false := by decide
    obtain ⟨c, hc, h1, h2⟩ := hletter _ hmem
    rcases intToString_chars n c hc with e | e
    · exact h1 e
    · rw [e] at h2; cases h2
  simp [HostError.inKnownErrors, JSValue.toJSString, hno]

theorem HostError.foldl_rawResponse_of_some (response : Response) (raw : Obj)
    (ks : List String) :
    ∀ st : Reconciled, st.rawResponse = some response →
      (ks.foldl (HostError.reconcileStep response raw) st).rawResponse = some response := by
  induction ks with
  | nil => intro st h; exact h
  | cons p ks ih =>
    intro st h
    rw [List.foldl_cons]
    apply ih
    by_cases hp : p ∈ Obj.keys st.params
    · rw [HostError.reconcileStep_expected response raw st p hp]; exact h
    · rw [HostError.reconcileStep_unexpected response raw st p hp]

/-- Whenever the constructor completes on a response with a status other than
`error` or without `params`, the message is the fixed text and the response is
retained. -/
theorem HostError.invalid_response_classified (response : Response) (e : HostError)
    (hinvalid : HostError.isInvalidResponse response = true)
    (h : HostError.construct response = Completion.normal e) :
    e.message = "Invalid error response" ∧ e.rawResponse = some response := by
  cases hin : HostError.inKnownErrors response.code with
  | false =>
    rw [HostError.construct_unknown response hin] at h
    cases h
    simp [HostError.initialMessage, hinvalid]
  | true =>
    cases hk : HostError.knownError HostError.KNOWN_ERRORS response.code.toJSString with
    | none => simp [HostError.construct, hin, hk] at h
    | some schema =>
      cases hp : response.params with
      | none => simp [HostError.construct, hin, hk, hp] at h
      | some raw =>
        rw [HostError.construct_known response schema raw hk hp] at h
        cases h
        refine ⟨by simp [HostError.initialMessage, hinvalid], ?_⟩
        simp only [HostError.reconcile]
        exact HostError.foldl_rawResponse_of_some response raw _ _ (by simp [hinvalid])

/-- Whenever the constructor completes, the response is retained exactly when
it is invalid, or its code is not an own key of the table, or some key of its
`params` is not an expected parameter of the code; otherwise `rawResponse` is
never assigned. -/
theorem HostError.rawResponse_retained_iff (response : Response) (e : HostError)
    (h : HostError.construct response = Completion.normal e) :
    (e.rawResponse = some response ∨ e.rawResponse = none) ∧
    (e.rawResponse = some response ↔
      HostError.isInvalidResponse response = true ∨
      HostError.knownError HostError.KNOWN_ERRORS response.code.toJSString = none ∨
      ∃ schema raw,
        HostError.knownError HostError.KNOWN_ERRORS response.code.toJSString = some schema ∧
        response.params = some raw ∧ ∃ k ∈ Obj.keys raw, k ∉ schema.expectedParams) := by
  cases hin : HostError.inKnownErrors response.code with
  | false =>
    rw [HostError.construct_unknown response hin] at h
    cases h
    have hk : HostError.knownError HostError.KNOWN_ERRORS response.code.toJSString = none := by
      simp only [HostError.inKnownErrors, Bool.or_eq_false_iff] at hin
      cases hk : HostError.knownError HostError.KNOWN_ERRORS response.code.toJSString with
      | none => rfl
      | some s => rw [hk] at hin; simp at hin
    simp [hk]
  | true =>
    cases hk : HostError.knownError HostError.KNOWN_ERRORS response.code.toJSString with
    | none => simp [HostError.construct, hin, hk] at h
    | some schema =>
      cases hp : response.params with
      | none => simp [HostError.construct, hin, hk, hp] at h
      | some raw =>
        rw [HostError.construct_known response schema raw hk hp] at h
        cases h
        have hseed := HostError.keys_seedParams _ schema hk
        simp only [HostError.reconcile]
        by_cases hex : ∃ k ∈ Obj.keys raw, k ∉ schema.expectedParams
        · have hr := HostError.foldl_rawResponse response raw (Obj.keys raw)
            ⟨HostError.seedParams schema.expectedParams, [],
              if HostError.isInvalidResponse response then some response else none⟩
            (by simpa [hseed] using hex)
          rw [hr]
          simp [hex]
        · have hall : ∀ k ∈ Obj.keys raw,
              k ∈ Obj.keys (HostError.seedParams schema.expectedParams) := by
            intro k hkm
            rw [hseed]
            by_contra hn
            exact hex ⟨k, hkm, hn⟩
          rw [(HostError.foldl_all_expected response raw (Obj.keys raw) _ hall).2]
          cases hinv : HostError.isInvalidResponse response with
          | true => simp
          | false => simp [hex]

/-! ## Unexpected parameters -/

theorem Obj.mem_keys_set_of_mem (o : Obj) (k k' : String) (v : JSValue)
    (h : k' ∈ Obj.keys o) : k' ∈ Obj.keys (Obj.set o k v) := by
  by_cases hm : k ∈ Obj.keys o
  · rw [Obj.keys_set_of_mem o k v hm]; exact h
  · rw [Obj.keys_set_of_not_mem o k v hm]
    by_cases hp : k = "__proto__"
    · simp only [hp, if_true]; exact h
    · simp only [hp, if_false]; exact List.mem_append_left _ h

theorem Obj.mem_keys_set_self (o : Obj) (k : String) (v : JSValue) (h : k ≠ "__proto__") :
    k ∈ Obj.keys (Obj.set o k v) := by
  by_cases hm : k ∈ Obj.keys o
  · rw [Obj.keys_set_of_mem o k v hm]; exact hm
  · rw [Obj.keys_set_of_not_mem o k v hm]
    simp [h]

theorem Obj.nodup_keys_set (o : Obj) (k : String) (v : JSValue)
    (h : (Obj.keys o).Nodup) : (Obj.keys (Obj.set o k v)).Nodup := by
  by_cases hm : k ∈ Obj.keys o
  · rw [Obj.keys_set_of_mem o k v hm]; exact h
  · rw [Obj.keys_set_of_not_mem o k v hm]
    by_cases hp : k = "__proto__"
    · simp only [hp, if_true]; exact h
    · simp only [hp, if_false]
      exact List.Nodup.append h (List.nodup_singleton k) (by simpa using hm)

theorem HostError.foldl_unexpected_inv (response : Response) (raw : Obj) (ks : List String) :
    ∀ st : Reconciled, (Obj.keys st.unexpectedParams).Nodup →
      (Obj.keys (ks.foldl (HostError.reconcileStep response raw) st).unexpectedParams).Nodup ∧
      (∀ k ∈ Obj.keys st.unexpectedParams,
        k ∈ Obj.keys (ks.foldl (HostError.reconcileStep response raw) st).unexpectedParams) ∧
      (∀ k ∈ ks, k ∉ Obj.keys st.params → k ≠ "__proto__" →
        k ∈ Obj.keys (ks.foldl (HostError.reconcileStep response raw) st).unexpectedParams) := by
  induction ks with
  | nil =>
    intro st h
    exact ⟨h, fun k hk => hk, fun k hk => by cases hk⟩
  | cons p ks ih =>
    intro st h
    have hkeys := HostError.reconcileStep_keys_params response raw st p
    rw [List.foldl_cons]
    by_cases hp : p ∈ Obj.keys st.params
    · have hstep := HostError.reconcileStep_expected response raw st p hp
      obtain ⟨h1, h2, h3⟩ := ih (HostError.reconcileStep response raw st p) (by rw [hstep]; exact h)
      refine ⟨h1, ?_, ?_⟩
      · intro k hk
        exact h2 k (by rw [hstep]; exact hk)
      · intro k hk hn hproto
        rcases List.mem_cons.1 hk with e | e
        · exact absurd (e ▸ hp) hn
        · exact h3 k e (by rw [hkeys]; exact hn) hproto
    · have hstep := HostError.reconcileStep_unexpected response raw st p hp
      obtain ⟨h1, h2, h3⟩ := ih (HostError.reconcileStep response raw st p)
        (by rw [hstep]; exact Obj.nodup_keys_set _ _ _ h)
      refine ⟨h1, ?_, ?_⟩
      · intro k hk
        exact h2 k (by rw [hstep]; exact Obj.mem_keys_set_of_mem _ _ _ _ hk)
      · intro k hk hn hproto
        rcases List.mem_cons.1 hk with e | e
        · apply h2
          rw [hstep, e]
          exact Obj.mem_keys_set_self _ _ _ (e ▸ hproto)
        · exact h3 k e (by rw [hkeys]; exact hn) hproto

/-- For a known code and a present `params`, every key of `params` other than
`__proto__` that is not expected for the code is filed with its raw value
under `unexpectedParams`, where it occurs exactly once; it is not a key of the
resulting `params`, and the response is retained. -/
theorem HostError.unexpected_param_filed (response : Response) (schema : ErrorSchema)
    (raw : Obj) (k : String)
    (hcode : HostError.knownError HostError.KNOWN_ERRORS response.code.toJSString
      = some schema)
    (hparams : response.params = some raw)
    (hk : k ∈ Obj.keys raw) (hunexpected : k ∉ schema.expectedParams)
    (hproto : k ≠ "__proto__") :
    ∃ (e : HostError) (unexpected : Obj),
      HostError.construct response = Completion.normal e ∧
      e.unexpectedParams = some unexpected ∧
      Obj.get unexpected k = Obj.get raw k ∧
      (Obj.keys unexpected).count k = 1 ∧
      k ∉ Obj.keys e.params ∧
      e.rawResponse = some response := by
  have hseed := HostError.keys_seedParams _ schema hcode
  have hn : k ∉ Obj.keys (HostError.seedParams schema.expectedParams) := by
    rw [hseed]; exact hunexpected
  refine ⟨_, _, HostError.construct_known response schema raw hcode hparams, rfl, ?_, ?_, ?_, ?_⟩
  · simp only [HostError.reconcile]
    rw [HostError.foldl_get_unexpected response raw (Obj.keys raw) _ k hn hproto]
    simp [hk]
  · simp only [HostError.reconcile]
    obtain ⟨h1, _, h3⟩ := HostError.foldl_unexpected_inv response raw (Obj.keys raw)
      ⟨HostError.seedParams schema.expectedParams, [],
        if HostError.isInvalidResponse response then some response else none⟩
      (by simp [Obj.keys])
    exact List.count_eq_one_of_mem h1 (h3 k hk hn hproto)
  · simp only [HostError.reconcile]
    rw [HostError.foldl_keys_params]
    exact hn
  · simp only [HostError.reconcile]
    exact HostError.foldl_rawResponse response raw (Obj.keys raw) _ ⟨k, hk, hn⟩

/-- For a code that `in` does not find (in particular a numeric or absent code
that is not a key of the table), the instance is built with the description
`Unknown error code`, `unexpectedParams` is the raw `params` itself, `params`
is empty and the response is retained. -/
theorem HostError.unknown_code_classified (response : Response)
    (hcode : HostError.inKnownErrors response.code = false) :
    ∃ e : HostError, HostError.construct response = Completion.normal e ∧
      e.genericDescription = "Unknown error code" ∧
      e.unexpectedParams = response.params ∧
      e.params = [] ∧
      e.rawResponse = some response :=
  ⟨_, HostError.construct_unknown response hcode, rfl, rfl, rfl, rfl⟩

/-! ## Inputs on which the constructor diverges from its specification -/

/-- Claim C1: construction is not total. For the response
`{status: "error", version: 3001000, code: 10}` without `params`, line 38
takes the invalid-response branch, the code 10 is a key of the table, and
`Object.keys(response.params)` on line 56 throws a TypeError. -/
theorem construct_throws_without_params :
    HostError.construct ⟨JSValue.string "error", JSValue.number 3001000, JSValue.number 10, none⟩
      = Completion.throw (JSError.typeError "Cannot convert undefined or null to object") := by
  decide

/-- Claim C2: the response `{status: "error", code: 20}` without `params` is
invalid in the sense of line 38, yet no `HostError` with the fixed message and
the retained response results from it: the constructor throws on line 56. -/
theorem invalid_response_not_constructed :
    HostError.isInvalidResponse ⟨JSValue.string "error", JSValue.undefined, JSValue.number 20, none⟩
      = true ∧
    ∀ e : HostError,
      HostError.construct ⟨JSValue.string "error", JSValue.undefined, JSValue.number 20, none⟩
        ≠ Completion.normal e := by
  refine ⟨by decide, ?_⟩
  intro e h
  have ht : HostError.construct
      ⟨JSValue.string "error", JSValue.undefined, JSValue.number 20, none⟩
      = Completion.throw (JSError.typeError "Cannot convert undefined or null to object") := by
    decide
  rw [ht] at h
  cases h

/-- Claim C3: retention of the raw response does not coincide with the stated
condition. For `{status: "error", code: 10, params: {"__proto__": "x"}}` (an
own property `__proto__`) the response is valid, the code is a key of the
table and `unexpectedParams` ends up empty, yet the response is retained; and
for the invalid response `{status: "ok", code: 12}` without `params` no
instance is built at all. -/
theorem rawResponse_retained_with_empty_unexpectedParams :
    (HostError.isInvalidResponse
        ⟨JSValue.string "error", JSValue.undefined, JSValue.number 10,
          some [("__proto__", JSValue.string "x")]⟩ = false ∧
      HostError.knownError HostError.KNOWN_ERRORS (JSValue.number 10).toJSString
        = some ⟨"Unable to parse browser request length", ["error"]⟩ ∧
      HostError.construct
        ⟨JSValue.string "error", JSValue.undefined, JSValue.number 10,
          some [("__proto__", JSValue.string "x")]⟩
        = Completion.normal
          { message := ""
            name := "HostError"
            alreadyLogged := false
            version := JSValue.undefined
            code := JSValue.number 10
            params := [("error", JSValue.string "n/a")]
            unexpectedParams := some []
            genericDescription := "Unable to parse browser request length"
            rawResponse := some ⟨JSValue.string "error", JSValue.undefined, JSValue.number 10,
              some [("__proto__", JSValue.string "x")]⟩ }) ∧
    (HostError.isInvalidResponse
        ⟨JSValue.string "ok", JSValue.undefined, JSValue.number 12, none⟩ = true ∧
      HostError.construct ⟨JSValue.string "ok", JSValue.undefined, JSValue.number 12, none⟩
        = Completion.throw (JSError.typeError "Cannot convert undefined or null to object")) := by
  decide

/-- Claim C4: an unexpected key is not always filed. For
`{status: "error", code: 20, params: {action: "list", "__proto__": "x"}}` the
key `__proto__` is not expected for code 20, but the assignment of line 60
reaches the inherited `__proto__` setter, which ignores a string: the key is
absent from `unexpectedParams`, while the response is retained. -/
theorem proto_param_not_filed :
    "__proto__" ∈ Obj.keys [("action", JSValue.string "list"), ("__proto__", JSValue.string "x")] ∧
    HostError.construct
      ⟨JSValue.string "error", JSValue.undefined, JSValue.number 20,
        some [("action", JSValue.string "list"), ("__proto__", JSValue.string "x")]⟩
      = Completion.normal
        { message := ""
          name := "HostError"
          alreadyLogged := false
          version := JSValue.undefined
          code := JSValue.number 20
          params := [("action", JSValue.string "list"), ("storeId", JSValue.string "n/a")]
          unexpectedParams := some []
          genericDescription := "Invalid password store ID"
          rawResponse := some ⟨JSValue.string "error", JSValue.undefined, JSValue.number 20,
            some [("action", JSValue.string "list"), ("__proto__", JSValue.string "x")]⟩ } := by
  decide

/-- Claim C6: a code that is not a key of the table is not always classified
as unknown. For `{status: "error", code: "toString", params: {foo: "bar"}}`
the table has no key `toString`, but `in` finds the inherited property, the
lookup `KNOWN_ERRORS[code].expectedParams` is `undefined`, and the loop of
line 53 throws a TypeError. -/
theorem inherited_code_throws :
    HostError.knownError HostError.KNOWN_ERRORS (JSValue.string "toString").toJSString = none ∧
    HostError.construct
      ⟨JSValue.string "error", JSValue.undefined, JSValue.string "toString",
        some [("foo", JSValue.string "bar")]⟩
      = Completion.throw (JSError.typeError "undefined is not iterable") := by
  decide

/-! ## Logging -/

/-- Logging an `ExtensionError` twice in a row leaves the same instance and
the same console as logging it once; after the first call the instance is
marked as logged, and the second call writes nothing. -/
theorem ExtensionError.logToConsole_idempotent (e : ExtensionError) (console : List LogEntry) :
    ExtensionError.logTwice e console = ExtensionError.logToConsole e console ∧
    (ExtensionError.logToConsole e console).self.alreadyLogged = true ∧
    (ExtensionError.logToConsole e console).thrown = none := by
  cases h : e.alreadyLogged <;>
    simp [ExtensionError.logTwice, ExtensionError.logToConsole, h]

/-- With both free identifiers bound, logging a `HostError` twice in a row has
the effect of logging it once, and the first call marks the instance. -/
theorem HostError.logToConsole_idempotent_of_bound (globals : List (String × Obj))
    (e : HostError) (console : List LogEntry) (p u : Obj)
    (hp : globals.lookup "params" = some p)
    (hu : globals.lookup "unexpectedParams" = some u) :
    HostError.logTwice globals e console = HostError.logToConsole globals e console ∧
    (HostError.logToConsole globals e console).self.alreadyLogged = true ∧
    (HostError.logToConsole globals e console).thrown = none := by
  cases h : e.alreadyLogged <;>
    simp [HostError.logTwice, HostError.logToConsole, resolveIdentifier, hp, hu, h]

/-- With the identifier `params` unbound, a call on an instance not yet logged
writes the first two entries, throws a ReferenceError and leaves the instance
unmarked; a second call writes the same two entries again. -/
theorem HostError.logToConsole_unbound (globals : List (String × Obj)) (e : HostError)
    (console : List LogEntry) (hfresh : e.alreadyLogged = false)
    (hp : globals.lookup "params" = none) :
    (HostError.logToConsole globals e console).self = e ∧
    (HostError.logToConsole globals e console).thrown
      = some (JSError.referenceError "params") ∧
    (HostError.logToConsole globals e console).console.length = console.length + 2 ∧
    (HostError.logTwice globals e console).console.length = console.length + 4 := by
  simp [HostError.logTwice, HostError.logToConsole, resolveIdentifier, hp, hfresh]

/-- Claim C9: logging a `HostError` is not idempotent. For the instance built
from `{status: "error", version: 3001000, code: 20, params: {action: "list",
storeId: "x"}}`, with no global named `params`, the first call writes two
entries, throws a ReferenceError on line 98 and leaves `alreadyLogged` false;
two calls in a row leave four entries. -/
theorem hostError_logToConsole_repeats :
    HostError.construct
      ⟨JSValue.string "error", JSValue.number 3001000, JSValue.number 20,
        some [("action", JSValue.string "list"), ("storeId", JSValue.string "x")]⟩
      = Completion.normal
        { message := ""
          name := "HostError"
          alreadyLogged := false
          version := JSValue.number 3001000
          code := JSValue.number 20
          params := [("action", JSValue.string "list"), ("storeId", JSValue.string "x")]
          unexpectedParams := some []
          genericDescription := "Invalid password store ID"
          rawResponse := none } ∧
    HostError.logToConsole []
      { message := ""
        name := "HostError"
        alreadyLogged := false
        version := JSValue.number 3001000
        code := JSValue.number 20
        params := [("action", JSValue.string "list"), ("storeId", JSValue.string "x")]
        unexpectedParams := some []
        genericDescription := "Invalid password store ID"
        rawResponse := none } []
      = { self :=
            { message := ""
              name := "HostError"
              alreadyLogged := false
              version := JSValue.number 3001000
              code := JSValue.number 20
              params := [("action", JSValue.string "list"), ("storeId", JSValue.string "x")]
              unexpectedParams := some []
              genericDescription := "Invalid password store ID"
              rawResponse := none }
          console :=
            [LogEntry.errorHost
              { message := ""
                name := "HostError"
                alreadyLogged := false
                version := JSValue.number 3001000
                code := JSValue.number 20
                params := [("action", JSValue.string "list"), ("storeId", JSValue.string "x")]
                unexpectedParams := some []
                genericDescription := "Invalid password store ID"
                rawResponse := none },
             LogEntry.errorText
              "Host version : 3.1.0\nGeneric error: Invalid password store ID (20)"]
          thrown := some (JSError.referenceError "params") } ∧
    (HostError.logTwice []
      { message := ""
        name := "HostError"
        alreadyLogged := false
        version := JSValue.number 3001000
        code := JSValue.number 20
        params := [("action", JSValue.string "list"), ("storeId", JSValue.string "x")]
        unexpectedParams := some []
        genericDescription := "Invalid password store ID"
        rawResponse := none } []).console.length = 4 := by
  decide

end Browserpass
